import Mathlib

/-!
# SFML entry shim: `examples/common/entry/entry_sfml.cpp`

A shallow embedding of the gamepad tracker (`GamepadSFML`), the translation
tables and the event dispatch of `Context::run`, followed by the properties
proved about them.

Conventions of the embedding:

* `int32_t` values are integers; the one place where the source negates an
  `int32_t` (`-deadzone`) wraps through `wrapInt32`.
* `uint8_t` table cells are naturals reduced modulo 256 when stored.
* C++ enumerations are their numeric values, except the closed enumerations
  `GamepadAxis`, `MouseButton` and `sf::Mouse::Button`, which the source only
  ever names by enumerator and which are inductive types.
* Mutable objects are passed and returned explicitly.
-/

namespace entry

/-! ## Machine integers -/

/-- Largest `int32_t`, the "no device" sentinel of `GamepadSFML::m_jid`. -/
def INT32_MAX : Nat := 2147483647

/-- Reduction of an integer to the two's-complement range of `int32_t`. -/
def wrapInt32 (x : Int) : Int := (x + 2147483648) % 4294967296 - 2147483648

/-! ## Enumerations of `entry.h` -/

/-- Modelled from the spec: `GamepadAxis::Enum` is declared in `entry.h`, which
is not among the sources. The six axes (the spec's "four directional axes" and
the two triggers) in the order in which `s_axisDpad` and the constructor of
`GamepadSFML` index them; `GamepadAxis::Count` is the number of constructors. -/
inductive GamepadAxis where
  | LeftX
  | LeftY
  | LeftZ
  | RightX
  | RightY
  | RightZ
  deriving DecidableEq, Repr

/-- Numeric value of an axis, used to index `s_axisDpad`. -/
def GamepadAxis.toNat : GamepadAxis → Nat
  | .LeftX => 0
  | .LeftY => 1
  | .LeftZ => 2
  | .RightX => 3
  | .RightY => 4
  | .RightZ => 5

/-- Modelled from the spec: `MouseButton::Enum` is declared in `entry.h`, which
is not among the sources; the button identifiers carried by mouse-button
events. -/
inductive MouseButton where
  | None
  | Left
  | Middle
  | Right
  deriving DecidableEq, Repr

namespace Key

/-- Modelled from the spec: `Key::Enum` is declared in `entry.h`, which is not
among the sources. An engine key is its enumeration value, in the order of the
header; `None` is the sentinel `0` and `Count` closes the enumeration. The
proofs use only that `None` is 0, that the named keys are pairwise distinct and
that they lie below `Count`. -/
abbrev Enum := Nat

def None : Enum := 0
def Esc : Enum := 1
def Return : Enum := 2
def Tab : Enum := 3
def Space : Enum := 4
def Backspace : Enum := 5
def Up : Enum := 6
def Down : Enum := 7
def Left : Enum := 8
def Right : Enum := 9
def Insert : Enum := 10
def Delete : Enum := 11
def Home : Enum := 12
def End : Enum := 13
def PageUp : Enum := 14
def PageDown : Enum := 15
def Print : Enum := 16
def Plus : Enum := 17
def Minus : Enum := 18
def LeftBracket : Enum := 19
def RightBracket : Enum := 20
def Semicolon : Enum := 21
def Quote : Enum := 22
def Comma : Enum := 23
def Period : Enum := 24
def Slash : Enum := 25
def Backslash : Enum := 26
def Tilde : Enum := 27
def F1 : Enum := 28
def F2 : Enum := 29
def F3 : Enum := 30
def F4 : Enum := 31
def F5 : Enum := 32
def F6 : Enum := 33
def F7 : Enum := 34
def F8 : Enum := 35
def F9 : Enum := 36
def F10 : Enum := 37
def F11 : Enum := 38
def F12 : Enum := 39
def NumPad0 : Enum := 40
def NumPad1 : Enum := 41
def NumPad2 : Enum := 42
def NumPad3 : Enum := 43
def NumPad4 : Enum := 44
def NumPad5 : Enum := 45
def NumPad6 : Enum := 46
def NumPad7 : Enum := 47
def NumPad8 : Enum := 48
def NumPad9 : Enum := 49
def Key0 : Enum := 50
def Key1 : Enum := 51
def Key2 : Enum := 52
def Key3 : Enum := 53
def Key4 : Enum := 54
def Key5 : Enum := 55
def Key6 : Enum := 56
def Key7 : Enum := 57
def Key8 : Enum := 58
def Key9 : Enum := 59
def KeyA : Enum := 60
def KeyB : Enum := 61
def KeyC : Enum := 62
def KeyD : Enum := 63
def KeyE : Enum := 64
def KeyF : Enum := 65
def KeyG : Enum := 66
def KeyH : Enum := 67
def KeyI : Enum := 68
def KeyJ : Enum := 69
def KeyK : Enum := 70
def KeyL : Enum := 71
def KeyM : Enum := 72
def KeyN : Enum := 73
def KeyO : Enum := 74
def KeyP : Enum := 75
def KeyQ : Enum := 76
def KeyR : Enum := 77
def KeyS : Enum := 78
def KeyT : Enum := 79
def KeyU : Enum := 80
def KeyV : Enum := 81
def KeyW : Enum := 82
def KeyX : Enum := 83
def KeyY : Enum := 84
def KeyZ : Enum := 85
def GamepadA : Enum := 86
def GamepadB : Enum := 87
def GamepadX : Enum := 88
def GamepadY : Enum := 89
def GamepadThumbL : Enum := 90
def GamepadThumbR : Enum := 91
def GamepadShoulderL : Enum := 92
def GamepadShoulderR : Enum := 93
def GamepadUp : Enum := 94
def GamepadDown : Enum := 95
def GamepadLeft : Enum := 96
def GamepadRight : Enum := 97
def GamepadBack : Enum := 98
def GamepadStart : Enum := 99
def GamepadGuide : Enum := 100
def Count : Enum := 101

end Key

namespace Modifier

/-- Modelled from the spec: `Modifier::Enum` is declared in `entry.h`, which is
not among the sources. The eight modifier bits named by the spec, one bit of a
`uint8_t` each, with the values of the header. -/
abbrev Enum := Nat

def None : Enum := 0
def LeftAlt : Enum := 0x01
def RightAlt : Enum := 0x02
def LeftCtrl : Enum := 0x04
def RightCtrl : Enum := 0x08
def LeftShift : Enum := 0x10
def RightShift : Enum := 0x20
def LeftMeta : Enum := 0x40
def RightMeta : Enum := 0x80

end Modifier

/-! ## Event queue (`entry_p.h`) -/

/-- The `const uint8_t*` argument of `postCharEvent`: either a local buffer of
four bytes, of which the source initialises only some (`none` is a byte left
uninitialised), or an integer reinterpreted as an address. -/
inductive CharPtr where
  | buffer (bytes : List (Option Nat))
  | address (value : Nat)
  deriving DecidableEq, Repr

/-- Modelled from the spec: the engine events of `entry_p.h`, which is not among
the sources. One constructor per variant listed by the spec, carrying the
arguments of the `post...Event` call that creates it. -/
inductive Event where
  | Axis (handle : Nat) (gamepad : Nat) (axis : GamepadAxis) (value : Int)
  | Char (handle : Nat) (len : Nat) (char : CharPtr)
  | Exit
  | Key (handle : Nat) (key : Key.Enum) (modifiers : Nat) (down : Bool)
  | MouseMove (handle : Nat) (mx my mz : Int)
  | MouseButton (handle : Nat) (mx my mz : Int) (button : MouseButton) (down : Bool)
  | Size (handle : Nat) (width height : Nat)
  deriving DecidableEq, Repr

/-- Modelled from the spec: the event queue of `entry_p.h`, which is not among
the sources. The embedding keeps the events in the order of the `post...Event`
calls that created them: every call appends one event at the back, and the
queue hands them to `poll` from the front. -/
abbrev EventQueue := List Event

namespace EventQueue

def postAxisEvent (q : EventQueue) (_handle _gamepad : Nat) (_axis : GamepadAxis)
    (_value : Int) : EventQueue :=
  q ++ [Event.Axis _handle _gamepad _axis _value]

def postCharEvent (q : EventQueue) (_handle : Nat) (_len : Nat) (_char : CharPtr) :
    EventQueue :=
  q ++ [Event.Char _handle _len _char]

def postExitEvent (q : EventQueue) : EventQueue :=
  q ++ [Event.Exit]

def postKeyEvent (q : EventQueue) (_handle : Nat) (_key : Key.Enum) (_modifiers : Nat)
    (_down : Bool) : EventQueue :=
  q ++ [Event.Key _handle _key _modifiers _down]

def postMouseMoveEvent (q : EventQueue) (_handle : Nat) (_mx _my _mz : Int) : EventQueue :=
  q ++ [Event.MouseMove _handle _mx _my _mz]

def postMouseButtonEvent (q : EventQueue) (_handle : Nat) (_mx _my _mz : Int)
    (_button : MouseButton) (_down : Bool) : EventQueue :=
  q ++ [Event.MouseButton _handle _mx _my _mz _button _down]

def postSizeEvent (q : EventQueue) (_handle : Nat) (_width _height : Nat) : EventQueue :=
  q ++ [Event.Size _handle _width _height]

end EventQueue

/-! ## Gamepad state tracker -/

/-- The pair of virtual keys an axis is remapped to. -/
structure AxisDpadRemap where
  first : Key.Enum
  second : Key.Enum
  deriving DecidableEq, Repr

/-- The table `s_axisDpad`, one row per axis in enumeration order. -/
def s_axisDpad : List AxisDpadRemap :=
  [ ⟨Key.GamepadLeft, Key.GamepadRight⟩
  , ⟨Key.GamepadUp, Key.GamepadDown⟩
  , ⟨Key.None, Key.None⟩
  , ⟨Key.GamepadLeft, Key.GamepadRight⟩
  , ⟨Key.GamepadUp, Key.GamepadDown⟩
  , ⟨Key.None, Key.None⟩ ]

/-- The row `s_axisDpad[_axis]`. -/
def axisDpad (_axis : GamepadAxis) : AxisDpadRemap :=
  s_axisDpad.getD _axis.toNat ⟨Key.None, Key.None⟩

/-- Modelled from the spec: the number of joystick slots of the windowing
library (`sf::Joystick::Count`), which is not among the sources; the joystick
id of a native joystick event lies below it. -/
def sf.Joystick.Count : Nat := 8

/-- The payload of `sf::Event::JoystickConnectEvent`. -/
structure JoystickConnectEvent where
  joystickId : Nat
  deriving DecidableEq, Repr

/-- The fields of `struct GamepadSFML`. -/
structure GamepadSFML where
  m_value : GamepadAxis → Int
  m_deadzone : GamepadAxis → Int
  m_jid : Nat

namespace GamepadSFML

/-- The constructor `GamepadSFML::GamepadSFML()`. -/
def ctor : GamepadSFML where
  m_jid := INT32_MAX
  m_value := fun _ => 0
  m_deadzone := fun a =>
    match a with
    | .LeftX => 7849
    | .LeftY => 7849
    | .RightX => 8689
    | .RightY => 8689
    | .LeftZ => 30
    | .RightZ => 30

/-- The method `GamepadSFML::create`. -/
def create (s : GamepadSFML) (_jev : JoystickConnectEvent) : GamepadSFML :=
  { s with m_jid := _jev.joystickId }

/-- The method `GamepadSFML::destroy`. -/
def destroy (s : GamepadSFML) : GamepadSFML :=
  { s with m_jid := INT32_MAX }

/-- The method `GamepadSFML::filter`. Returns the boolean result, the tracker
after the call and the value written back through `_value`. -/
def filter (s : GamepadSFML) (_axis : GamepadAxis) (_value : Int) :
    Bool × GamepadSFML × Int :=
  let old := s.m_value _axis
  let deadzone := s.m_deadzone _axis
  let value := _value
  let value := if value > deadzone ∨ value < wrapInt32 (-deadzone) then value else 0
  (decide (old ≠ value), { s with m_value := Function.update s.m_value _axis value }, value)

/-- The method `GamepadSFML::update`. Returns the tracker and the event queue
after the call. -/
def update (s : GamepadSFML) (_eventQueue : EventQueue) (_handle _gamepad : Nat)
    (_axis : GamepadAxis) (_value : Int) : GamepadSFML × EventQueue :=
  match s.filter _axis _value with
  | (true, s, _value) =>
    let _eventQueue := _eventQueue.postAxisEvent _handle _gamepad _axis _value
    if Key.None ≠ (axisDpad _axis).first then
      if _value = 0 then
        let _eventQueue := _eventQueue.postKeyEvent _handle (axisDpad _axis).first 0 false
        let _eventQueue := _eventQueue.postKeyEvent _handle (axisDpad _axis).second 0 false
        (s, _eventQueue)
      else
        (s, _eventQueue.postKeyEvent _handle
          (if 0 > _value then (axisDpad _axis).first else (axisDpad _axis).second) 0 true)
    else
      (s, _eventQueue)
  | (false, s, _) => (s, _eventQueue)

/-- Feeding a sequence of raw values of one axis to `GamepadSFML::update`, one
call per value, in order. -/
def updates (s : GamepadSFML) (_eventQueue : EventQueue) (_handle _gamepad : Nat)
    (_axis : GamepadAxis) : List Int → GamepadSFML × EventQueue
  | [] => (s, _eventQueue)
  | v :: vs =>
    updates (s.update _eventQueue _handle _gamepad _axis v).1
      (s.update _eventQueue _handle _gamepad _axis v).2 _handle _gamepad _axis vs

end GamepadSFML

/-! ## Native key codes and modifier translation -/

namespace sf

namespace Keyboard

/-- Modelled from the spec: the native key codes of the windowing library
(`sf::Keyboard::Key` of SFML's `Keyboard.hpp`), which is not among the sources.
A native key is its enumeration value, an `int`; only the enumerators the
source names are listed, with the values of the library header. The proofs use
only that the eight modifier keys are pairwise distinct and that the registered
codes lie in 0..255. -/
abbrev Key := Int

def Unknown : Key := -1
def A : Key := 0
def B : Key := 1
def C : Key := 2
def D : Key := 3
def E : Key := 4
def F : Key := 5
def G : Key := 6
def H : Key := 7
def I : Key := 8
def J : Key := 9
def K : Key := 10
def L : Key := 11
def M : Key := 12
def N : Key := 13
def O : Key := 14
def P : Key := 15
def Q : Key := 16
def R : Key := 17
def S : Key := 18
def T : Key := 19
def U : Key := 20
def V : Key := 21
def W : Key := 22
def X : Key := 23
def Y : Key := 24
def Z : Key := 25
def Num0 : Key := 26
def Num1 : Key := 27
def Num2 : Key := 28
def Num3 : Key := 29
def Num4 : Key := 30
def Num5 : Key := 31
def Num6 : Key := 32
def Num7 : Key := 33
def Num8 : Key := 34
def Num9 : Key := 35
def Escape : Key := 36
def LControl : Key := 37
def LShift : Key := 38
def LAlt : Key := 39
def LSystem : Key := 40
def RControl : Key := 41
def RShift : Key := 42
def RAlt : Key := 43
def RSystem : Key := 44
def Comma : Key := 49
def Period : Key := 50
def Slash : Key := 52
def Tilde : Key := 54
def Space : Key := 57
def Return : Key := 58
def Backspace : Key := 59
def Tab : Key := 60
def PageUp : Key := 61
def PageDown : Key := 62
def End : Key := 63
def Home : Key := 64
def Add : Key := 67
def Subtract : Key := 68
def Left : Key := 71
def Right : Key := 72
def Up : Key := 73
def Down : Key := 74
def Numpad0 : Key := 75
def Numpad1 : Key := 76
def Numpad2 : Key := 77
def Numpad3 : Key := 78
def Numpad4 : Key := 79
def Numpad5 : Key := 80
def Numpad6 : Key := 81
def Numpad7 : Key := 82
def Numpad8 : Key := 83
def Numpad9 : Key := 84
def F1 : Key := 85
def F2 : Key := 86
def F3 : Key := 87
def F4 : Key := 88
def F5 : Key := 89
def F6 : Key := 90
def F7 : Key := 91
def F8 : Key := 92
def F9 : Key := 93
def F10 : Key := 94
def F11 : Key := 95
def F12 : Key := 96

end Keyboard

namespace Mouse

/-- Modelled from the spec: the native mouse buttons of the windowing library
(`sf::Mouse::Button`), which is not among the sources. -/
inductive Button where
  | Left
  | Right
  | Middle
  | XButton1
  | XButton2
  deriving DecidableEq, Repr

end Mouse

/-- Modelled from the spec: the native events of the windowing library
(`sf::Event`), which is not among the sources, with the payload fields the run
loop reads. `Other` stands for every event type the run loop has no `case` for.
`MouseWheelScrolled`, whose payload is a floating-point delta added to the
integer wheel accumulator, is outside the embedding. -/
inductive Event where
  | Closed
  | MouseMoved (x y : Int)
  | MouseButtonPressed (button : Mouse.Button) (x y : Int)
  | MouseButtonReleased (button : Mouse.Button) (x y : Int)
  | TextEntered (unicode : Nat)
  | KeyPressed (code : Keyboard.Key)
  | KeyReleased (code : Keyboard.Key)
  | Resized (width height : Nat)
  | Other
  deriving DecidableEq, Repr

end sf

/-- The function `translateKeyModifiers`; every `|=` stores into a `uint8_t`. -/
def translateKeyModifiers (key : sf.Keyboard.Key) : Nat :=
  let modifiers := 0
  let modifiers := (modifiers ||| (if key = sf.Keyboard.LAlt then Modifier.LeftAlt else 0)) % 256
  let modifiers := (modifiers ||| (if key = sf.Keyboard.RAlt then Modifier.RightAlt else 0)) % 256
  let modifiers := (modifiers ||| (if key = sf.Keyboard.LControl then Modifier.LeftCtrl else 0)) % 256
  let modifiers := (modifiers ||| (if key = sf.Keyboard.RControl then Modifier.RightCtrl else 0)) % 256
  let modifiers := (modifiers ||| (if key = sf.Keyboard.LShift then Modifier.LeftShift else 0)) % 256
  let modifiers := (modifiers ||| (if key = sf.Keyboard.RShift then Modifier.RightShift else 0)) % 256
  let modifiers := (modifiers ||| (if key = sf.Keyboard.LSystem then Modifier.LeftMeta else 0)) % 256
  let modifiers := (modifiers ||| (if key = sf.Keyboard.RSystem then Modifier.RightMeta else 0)) % 256
  modifiers

/-- The function `translateKeyModifierPress`; the `switch` is tried case by
case, the result is stored into a `uint8_t`. -/
def translateKeyModifierPress (_key : sf.Keyboard.Key) : Nat :=
  if _key = sf.Keyboard.LAlt then Modifier.LeftAlt % 256
  else if _key = sf.Keyboard.RAlt then Modifier.RightAlt % 256
  else if _key = sf.Keyboard.LControl then Modifier.LeftCtrl % 256
  else if _key = sf.Keyboard.RControl then Modifier.RightCtrl % 256
  else if _key = sf.Keyboard.LShift then Modifier.LeftShift % 256
  else if _key = sf.Keyboard.RShift then Modifier.RightShift % 256
  else if _key = sf.Keyboard.LSystem then Modifier.LeftMeta % 256
  else if _key = sf.Keyboard.RSystem then Modifier.RightMeta % 256
  else 0

/-- The modifier bit the claim assigns to a native key: the spec's pairing of
the eight modifier keys with the eight modifier bits, `none` for any other
code. -/
def modifierOf (k : sf.Keyboard.Key) : Option Modifier.Enum :=
  if k = sf.Keyboard.LAlt then some Modifier.LeftAlt
  else if k = sf.Keyboard.RAlt then some Modifier.RightAlt
  else if k = sf.Keyboard.LControl then some Modifier.LeftCtrl
  else if k = sf.Keyboard.RControl then some Modifier.RightCtrl
  else if k = sf.Keyboard.LShift then some Modifier.LeftShift
  else if k = sf.Keyboard.RShift then some Modifier.RightShift
  else if k = sf.Keyboard.LSystem then some Modifier.LeftMeta
  else if k = sf.Keyboard.RSystem then some Modifier.RightMeta
  else none

/-! ## Key translation table -/

/-- The function `initTranslateKey`, on the table `s_translateKey` passed
explicitly; the cell holds a `uint8_t`. -/
def initTranslateKey (s_translateKey : Int → Nat) (_sfml : sf.Keyboard.Key)
    (_key : Key.Enum) : Int → Nat :=
  Function.update s_translateKey _sfml (_key % 256)

/-- The calls of `initTranslateKey` made by `Context::Context()`, in source
order. -/
def keyRegistrations : List (sf.Keyboard.Key × Key.Enum) :=
  [ (sf.Keyboard.Escape, Key.Esc)
  , (sf.Keyboard.Return, Key.Return)
  , (sf.Keyboard.Tab, Key.Tab)
  , (sf.Keyboard.Backspace, Key.Backspace)
  , (sf.Keyboard.Space, Key.Space)
  , (sf.Keyboard.Up, Key.Up)
  , (sf.Keyboard.Down, Key.Down)
  , (sf.Keyboard.Left, Key.Left)
  , (sf.Keyboard.Right, Key.Right)
  , (sf.Keyboard.PageUp, Key.PageUp)
  , (sf.Keyboard.PageDown, Key.PageDown)
  , (sf.Keyboard.Home, Key.Home)
  , (sf.Keyboard.End, Key.End)
  , (sf.Keyboard.Add, Key.Plus)
  , (sf.Keyboard.Subtract, Key.Minus)
  , (sf.Keyboard.Tilde, Key.Tilde)
  , (sf.Keyboard.Comma, Key.Comma)
  , (sf.Keyboard.Period, Key.Period)
  , (sf.Keyboard.Slash, Key.Slash)
  , (sf.Keyboard.F1, Key.F1)
  , (sf.Keyboard.F2, Key.F2)
  , (sf.Keyboard.F3, Key.F3)
  , (sf.Keyboard.F4, Key.F4)
  , (sf.Keyboard.F5, Key.F5)
  , (sf.Keyboard.F6, Key.F6)
  , (sf.Keyboard.F7, Key.F7)
  , (sf.Keyboard.F8, Key.F8)
  , (sf.Keyboard.F9, Key.F9)
  , (sf.Keyboard.F10, Key.F10)
  , (sf.Keyboard.F11, Key.F11)
  , (sf.Keyboard.F12, Key.F12)
  , (sf.Keyboard.Numpad0, Key.NumPad0)
  , (sf.Keyboard.Numpad1, Key.NumPad1)
  , (sf.Keyboard.Numpad2, Key.NumPad2)
  , (sf.Keyboard.Numpad3, Key.NumPad3)
  , (sf.Keyboard.Numpad4, Key.NumPad4)
  , (sf.Keyboard.Numpad5, Key.NumPad5)
  , (sf.Keyboard.Numpad6, Key.NumPad6)
  , (sf.Keyboard.Numpad7, Key.NumPad7)
  , (sf.Keyboard.Numpad8, Key.NumPad8)
  , (sf.Keyboard.Numpad9, Key.NumPad9)
  , (sf.Keyboard.Num0, Key.Key0)
  , (sf.Keyboard.Num1, Key.Key1)
  , (sf.Keyboard.Num2, Key.Key2)
  , (sf.Keyboard.Num3, Key.Key3)
  , (sf.Keyboard.Num4, Key.Key4)
  , (sf.Keyboard.Num5, Key.Key5)
  , (sf.Keyboard.Num6, Key.Key6)
  , (sf.Keyboard.Num7, Key.Key7)
  , (sf.Keyboard.Num8, Key.Key8)
  , (sf.Keyboard.Num9, Key.Key9)
  , (sf.Keyboard.A, Key.KeyA)
  , (sf.Keyboard.B, Key.KeyB)
  , (sf.Keyboard.C, Key.KeyC)
  , (sf.Keyboard.D, Key.KeyD)
  , (sf.Keyboard.E, Key.KeyE)
  , (sf.Keyboard.F, Key.KeyF)
  , (sf.Keyboard.G, Key.KeyG)
  , (sf.Keyboard.H, Key.KeyH)
  , (sf.Keyboard.I, Key.KeyI)
  , (sf.Keyboard.J, Key.KeyJ)
  , (sf.Keyboard.K, Key.KeyK)
  , (sf.Keyboard.L, Key.KeyL)
  , (sf.Keyboard.M, Key.KeyM)
  , (sf.Keyboard.N, Key.KeyN)
  , (sf.Keyboard.O, Key.KeyO)
  , (sf.Keyboard.P, Key.KeyP)
  , (sf.Keyboard.Q, Key.KeyQ)
  , (sf.Keyboard.R, Key.KeyR)
  , (sf.Keyboard.S, Key.KeyS)
  , (sf.Keyboard.T, Key.KeyT)
  , (sf.Keyboard.U, Key.KeyU)
  , (sf.Keyboard.V, Key.KeyV)
  , (sf.Keyboard.W, Key.KeyW)
  , (sf.Keyboard.X, Key.KeyX)
  , (sf.Keyboard.Y, Key.KeyY)
  , (sf.Keyboard.Z, Key.KeyZ) ]

/-- Running a list of `initTranslateKey` calls on a table. -/
def initTranslateKeys (s_translateKey : Int → Nat) :
    List (sf.Keyboard.Key × Key.Enum) → Int → Nat
  | [] => s_translateKey
  | (_sfml, _key) :: rest => initTranslateKeys (initTranslateKey s_translateKey _sfml _key) rest

/-- The static table `s_translateKey` as `Context::Context()` leaves it:
`memSet` to zero, then the registrations. Only the cells 0..255 exist in the
source; what this function gives outside 0..255 has no counterpart there (the
source would read out of bounds), and every statement about `translateKey` is
restricted to codes in 0..255. -/
def s_translateKey : Int → Nat :=
  initTranslateKeys (fun _ => 0) keyRegistrations

/-- The function `translateKey`, reading the constructed table. -/
def translateKey (_sfml : sf.Keyboard.Key) : Key.Enum :=
  s_translateKey _sfml

/-! ## Window and run loop controller -/

/-- The fields of `struct Context` that the event dispatch reads or writes.
`m_window` is the native window reduced to its size, `none` while it is not
open. The defaults `ENTRY_DEFAULT_WIDTH` and `ENTRY_DEFAULT_HEIGHT` are defined
outside the sources and are parameters of the constructor. -/
structure Context where
  m_eventQueue : EventQueue
  m_window : Option (Nat × Nat)
  m_width : Nat
  m_height : Nat
  m_mx : Int
  m_my : Int
  m_mz : Int
  m_mouseLock : Bool
  m_fullscreen : Bool
  deriving DecidableEq, Repr

namespace Context

/-- The member initialisers of `Context::Context()`; the body of the
constructor fills the translation tables (`s_translateKey`). -/
def ctor (ENTRY_DEFAULT_WIDTH ENTRY_DEFAULT_HEIGHT : Nat) : Context where
  m_eventQueue := []
  m_window := none
  m_width := ENTRY_DEFAULT_WIDTH
  m_height := ENTRY_DEFAULT_HEIGHT
  m_mx := 0
  m_my := 0
  m_mz := 0
  m_mouseLock := false
  m_fullscreen := false

/-- The method `Context::setWindowSize`. -/
def setWindowSize (c : Context) (_handle : Nat) (_width _height : Nat) (_force : Bool) :
    Context :=
  if _width ≠ c.m_width ∨ _height ≠ c.m_height ∨ _force = true then
    let c := { c with m_width := _width }
    let c := { c with m_height := _height }
    let c := { c with m_window := c.m_window.map (fun _ => (c.m_width, c.m_height)) }
    { c with m_eventQueue := c.m_eventQueue.postSizeEvent 0 c.m_width c.m_height }
  else
    c

/-- The inner `switch` on `event.mouseButton.button`. -/
def translateMouseButton : sf.Mouse.Button → MouseButton
  | .Left => MouseButton.Left
  | .Middle => MouseButton.Middle
  | .Right => MouseButton.Right
  | _ => MouseButton.Left

/-- The body of the event loop of `Context::run`: the `switch (event.type)`
applied to one native event. The boolean is the local `exit`. -/
def dispatch (c : Context) (exit : Bool) (event : sf.Event) : Context × Bool :=
  let defaultWindow := 0
  match event with
  | .Closed =>
    ({ c with m_eventQueue := c.m_eventQueue.postExitEvent }, true)
  | .MouseMoved x y =>
    let c := { c with m_mx := x }
    let c := { c with m_my := y }
    ({ c with m_eventQueue :=
        c.m_eventQueue.postMouseMoveEvent defaultWindow c.m_mx c.m_my c.m_mz }, exit)
  | .MouseButtonPressed b x y =>
    let button := translateMouseButton b
    ({ c with m_eventQueue :=
        c.m_eventQueue.postMouseButtonEvent defaultWindow x y c.m_mz button true }, exit)
  | .MouseButtonReleased b x y =>
    let button := translateMouseButton b
    ({ c with m_eventQueue :=
        c.m_eventQueue.postMouseButtonEvent defaultWindow x y c.m_mz button false }, exit)
  | .TextEntered unicode =>
    ({ c with m_eventQueue :=
        c.m_eventQueue.postCharEvent defaultWindow 1 (CharPtr.address unicode) }, exit)
  | .KeyPressed code =>
    let key := translateKey code
    let c :=
      if Key.Esc = key then
        let pressedChar := [some 0x1b, none, none, none]
        { c with m_eventQueue :=
            c.m_eventQueue.postCharEvent defaultWindow 1 (CharPtr.buffer pressedChar) }
      else if Key.Return = key then
        let pressedChar := [some 0x0d, none, none, none]
        { c with m_eventQueue :=
            c.m_eventQueue.postCharEvent defaultWindow 1 (CharPtr.buffer pressedChar) }
      else if Key.Backspace = key then
        let pressedChar := [some 0x08, none, none, none]
        { c with m_eventQueue :=
            c.m_eventQueue.postCharEvent defaultWindow 1 (CharPtr.buffer pressedChar) }
      else
        c
    ({ c with m_eventQueue := c.m_eventQueue.postKeyEvent defaultWindow key 0 true }, exit)
  | .KeyReleased code =>
    let key := translateKey code
    ({ c with m_eventQueue := c.m_eventQueue.postKeyEvent defaultWindow key 0 false }, exit)
  | .Resized width height =>
    (c.setWindowSize defaultWindow width height false, exit)
  | .Other => (c, exit)

/-- The inner loop `while (m_window.pollEvent(event))`: the pending native
events are dispatched in order; events behind a `Closed` are still drained. -/
def pollEvents (c : Context) (exit : Bool) : List sf.Event → Context × Bool
  | [] => (c, exit)
  | event :: pending => pollEvents (c.dispatch exit event).1 (c.dispatch exit event).2 pending

/-- The outer loop `while (!exit)` of `Context::run`. Each element of `frames`
is the list of native events pending in one iteration. The result is `none`
when the frames given end before a `Closed` event was seen: the loop is then
still running. -/
def runLoop (c : Context) : List (List sf.Event) → Option Context
  | [] => none
  | pending :: frames =>
    if (c.pollEvents false pending).2 = true then
      some (c.pollEvents false pending).1
    else
      runLoop (c.pollEvents false pending).1 frames

/-- The method `Context::run`, reduced to its effect on the context: the window
is created at the tracked size, the size is forced, the loop runs until
`Closed`, the window is closed. Rendering and the application thread are not
part of the embedding. -/
def run (c : Context) (frames : List (List sf.Event)) : Option Context :=
  let c := { c with m_window := some (c.m_width, c.m_height) }
  let defaultWindow := 0
  let c := c.setWindowSize defaultWindow c.m_width c.m_height true
  match c.runLoop frames with
  | some c => some { c with m_window := none }
  | none => none

end Context

/-! ## Vocabulary of the claims -/

/-- The pair of virtual keys the claims give for an axis: left/right for the X
axes, up/down for the Y axes, none for the triggers. -/
def dpadKeys : GamepadAxis → Option (Key.Enum × Key.Enum)
  | .LeftX => some (Key.GamepadLeft, Key.GamepadRight)
  | .LeftY => some (Key.GamepadUp, Key.GamepadDown)
  | .RightX => some (Key.GamepadLeft, Key.GamepadRight)
  | .RightY => some (Key.GamepadUp, Key.GamepadDown)
  | .LeftZ => none
  | .RightZ => none

/-- The key events the claims expect after the axis event, for an axis and a
filtered value that changed. -/
def dpadEvents (_handle : Nat) (a : GamepadAxis) (f : Int) : List Event :=
  match dpadKeys a with
  | none => []
  | some (first, second) =>
    if f = 0 then
      [Event.Key _handle first 0 false, Event.Key _handle second 0 false]
    else if f < 0 then
      [Event.Key _handle first 0 true]
    else
      [Event.Key _handle second 0 true]

/-- The deadzone filter in the words of the spec: 0 when the magnitude is
within the deadzone `d`, the raw value otherwise. -/
def deadzoneFilter (d v : Int) : Int :=
  if |v| ≤ d then 0 else v

/-- Number of crossings into the deadzone in a sequence of filtered values
that follows the value `prev`: a nonzero value followed by 0. -/
def crossingsIn : Int → List Int → Nat
  | _, [] => 0
  | prev, f :: fs => (if prev ≠ 0 ∧ f = 0 then 1 else 0) + crossingsIn f fs

/-- Number of crossings out of the deadzone: 0 followed by a nonzero value. -/
def crossingsOut : Int → List Int → Nat
  | _, [] => 0
  | prev, f :: fs => (if prev = 0 ∧ f ≠ 0 then 1 else 0) + crossingsOut f fs

/-- Number of changes to a negative value: a value followed by a different,
negative one. -/
def changesToNegative : Int → List Int → Nat
  | _, [] => 0
  | prev, f :: fs => (if prev ≠ f ∧ f < 0 then 1 else 0) + changesToNegative f fs

/-- Number of changes to a positive value: a value followed by a different,
positive one. -/
def changesToPositive : Int → List Int → Nat
  | _, [] => 0
  | prev, f :: fs => (if prev ≠ f ∧ 0 < f then 1 else 0) + changesToPositive f fs

/-- Number of key events for `key` with the given `down` flag in a queue. -/
def countKey (key : Key.Enum) (down : Bool) (q : List Event) : Nat :=
  q.countP (fun e =>
    match e with
    | Event.Key _ k _ d => decide (k = key) && decide (d = down)
    | _ => false)

/-- Number of key-down events in a queue. -/
def countKeyDown (q : List Event) : Nat :=
  q.countP (fun e =>
    match e with
    | Event.Key _ _ _ d => d
    | _ => false)

/-- The filtered values of a sequence of raw values of axis `a`, under the
constructor's deadzone for `a`. -/
def filteredValues (a : GamepadAxis) (vs : List Int) : List Int :=
  vs.map (deadzoneFilter (GamepadSFML.ctor.m_deadzone a))

/-- The events posted when the raw values `vs` of axis `a` are fed to `update`,
starting from the constructed tracker and an empty queue. -/
def updateTrace (_handle _gamepad : Nat) (a : GamepadAxis) (vs : List Int) : List Event :=
  (GamepadSFML.ctor.updates [] _handle _gamepad a vs).2

/-- The native event sequence of the end-to-end property: the pointer moves to
(10, 10), the left button is pressed with the native event carrying the
position `(px, py)` and released with it carrying `(rx, ry)`, the window is
closed. -/
def endToEndSequence (px py rx ry : Int) : List sf.Event :=
  [ sf.Event.MouseMoved 10 10
  , sf.Event.MouseButtonPressed sf.Mouse.Button.Left px py
  , sf.Event.MouseButtonReleased sf.Mouse.Button.Left rx ry
  , sf.Event.Closed ]

/-- The engine events posted for `endToEndSequence`, on the default window
(handle 0): the button events carry the position of the native event. -/
def endToEndEvents (px py rx ry : Int) : List Event :=
  [ Event.MouseMove 0 10 10 0
  , Event.MouseButton 0 px py 0 MouseButton.Left true
  , Event.MouseButton 0 rx ry 0 MouseButton.Left false
  , Event.Exit ]

/-- The four engine events the end-to-end property lists. -/
def claimedEndToEndEvents : List Event :=
  [ Event.MouseMove 0 10 10 0
  , Event.MouseButton 0 10 10 0 MouseButton.Left true
  , Event.MouseButton 0 10 10 0 MouseButton.Left false
  , Event.Exit ]

/-! ## Properties of the gamepad tracker -/

theorem ctor_deadzone_bounds (a : GamepadAxis) :
    0 ≤ GamepadSFML.ctor.m_deadzone a ∧ GamepadSFML.ctor.m_deadzone a ≤ 8689 := by
  cases a <;> simp [GamepadSFML.ctor]

theorem wrapInt32_neg_of_small (d : Int) (h0 : 0 ≤ d) (h1 : d ≤ 2147483647) :
    wrapInt32 (-d) = -d := by
  unfold wrapInt32
  omega

/-- With a deadzone that is a non-negative `int32_t`, the value `filter` writes
back is the deadzone filter of the spec. -/
theorem filter_value_eq (s : GamepadSFML) (a : GamepadAxis) (v : Int)
    (h0 : 0 ≤ s.m_deadzone a) (h1 : s.m_deadzone a ≤ 2147483647) :
    (s.filter a v).2.2 = deadzoneFilter (s.m_deadzone a) v := by
  have hw := wrapInt32_neg_of_small (s.m_deadzone a) h0 h1
  unfold GamepadSFML.filter deadzoneFilter
  simp only [hw]
  by_cases h : |v| ≤ s.m_deadzone a
  · have h2 := abs_le.mp h
    have h3 : ¬ (v > s.m_deadzone a ∨ v < -s.m_deadzone a) := by omega
    simp [h, h3]
  · have h2 := lt_abs.mp (not_le.mp h)
    have h3 : v > s.m_deadzone a ∨ v < -s.m_deadzone a := by omega
    simp [h, h3]

theorem filter_state (s : GamepadSFML) (a : GamepadAxis) (v : Int) :
    (s.filter a v).2.1 =
      { s with m_value := Function.update s.m_value a (s.filter a v).2.2 } := rfl

theorem filter_result (s : GamepadSFML) (a : GamepadAxis) (v : Int) :
    (s.filter a v).1 = decide (s.m_value a ≠ (s.filter a v).2.2) := rfl

/-- C1. Deadzone law of `GamepadSFML::filter`. The constructor's deadzones are
7849 for LeftX/LeftY, 8689 for RightX/RightY and 30 for LeftZ/RightZ, and in a
tracker holding them, for every axis `a` and every raw value `v` (in particular
every 32-bit signed one), the value written back through the pointer and the
value stored in `m_value[a]` are both 0 when `|v| <= m_deadzone[a]` and both
`v` when `|v| > m_deadzone[a]`. -/
theorem filter_deadzone_law (s : GamepadSFML) (a : GamepadAxis) (v : Int)
    (hd : s.m_deadzone = GamepadSFML.ctor.m_deadzone) :
    (GamepadSFML.ctor.m_deadzone GamepadAxis.LeftX = 7849 ∧
      GamepadSFML.ctor.m_deadzone GamepadAxis.LeftY = 7849 ∧
      GamepadSFML.ctor.m_deadzone GamepadAxis.RightX = 8689 ∧
      GamepadSFML.ctor.m_deadzone GamepadAxis.RightY = 8689 ∧
      GamepadSFML.ctor.m_deadzone GamepadAxis.LeftZ = 30 ∧
      GamepadSFML.ctor.m_deadzone GamepadAxis.RightZ = 30) ∧
    (s.filter a v).2.1.m_value a = (s.filter a v).2.2 ∧
    (|v| ≤ s.m_deadzone a → (s.filter a v).2.2 = 0) ∧
    (|v| > s.m_deadzone a → (s.filter a v).2.2 = v) := by
  have hb := ctor_deadzone_bounds a
  rw [← hd] at hb
  have hf := filter_value_eq s a v hb.1 (by omega)
  refine ⟨⟨rfl, rfl, rfl, rfl, rfl, rfl⟩, ?_, ?_, ?_⟩
  · rw [filter_state]; simp
  · intro h
    rw [hf]; simp [deadzoneFilter, h]
  · intro h
    rw [hf]; simp [deadzoneFilter, not_le.mpr h]

/-- Witness of C1: the constructed tracker, axis LeftX, raw value 5000. -/
theorem filter_deadzone_law_witness :
    (GamepadSFML.ctor.filter GamepadAxis.LeftX 5000).2.2 = 0 ∧
    (GamepadSFML.ctor.filter GamepadAxis.LeftX (-9000)).2.2 = -9000 :=
  ⟨(filter_deadzone_law GamepadSFML.ctor GamepadAxis.LeftX 5000 rfl).2.2.1 (by decide),
   (filter_deadzone_law GamepadSFML.ctor GamepadAxis.LeftX (-9000) rfl).2.2.2 (by decide)⟩

/-- C9. Edge detection of `GamepadSFML::filter`. For every tracker, axis `a` and
raw value `v`: the filtered value is `v` when `v > deadzone` or
`v < -deadzone` and 0 otherwise, which under the constructor's deadzones is the
deadzone filter of the spec; `filter(a, &v)` returns true exactly when this
filtered value differs from the value stored for `a` (0 in the constructed
tracker, where it returns true exactly when the filtered raw value is nonzero);
after the call the stored value of `a` is the filtered value, the stored values
of all other axes, the deadzones and `m_jid` are unchanged; and a second call
with the same axis and raw value returns false and writes back the same
value. -/
theorem filter_edge_detection (s : GamepadSFML) (a : GamepadAxis) (v : Int) :
    (s.filter a v).2.2
      = (if v > s.m_deadzone a ∨ v < wrapInt32 (-s.m_deadzone a) then v else 0) ∧
    (s.m_deadzone = GamepadSFML.ctor.m_deadzone →
      (s.filter a v).2.2 = deadzoneFilter (GamepadSFML.ctor.m_deadzone a) v) ∧
    ((s.filter a v).1 = true ↔ (s.filter a v).2.2 ≠ s.m_value a) ∧
    (∀ b, (s.filter a v).2.1.m_value b
        = if b = a then (s.filter a v).2.2 else s.m_value b) ∧
    (s.filter a v).2.1.m_deadzone = s.m_deadzone ∧
    (s.filter a v).2.1.m_jid = s.m_jid ∧
    GamepadSFML.ctor.m_value a = 0 ∧
    ((GamepadSFML.ctor.filter a v).1 = true
      ↔ deadzoneFilter (GamepadSFML.ctor.m_deadzone a) v ≠ 0) ∧
    ((s.filter a v).2.1.filter a v).1 = false ∧
    ((s.filter a v).2.1.filter a v).2.2 = (s.filter a v).2.2 := by
  have hctor : (GamepadSFML.ctor.filter a v).2.2
      = deadzoneFilter (GamepadSFML.ctor.m_deadzone a) v := by
    have hb := ctor_deadzone_bounds a
    exact filter_value_eq GamepadSFML.ctor a v hb.1 (by omega)
  refine ⟨rfl, ?_, ?_, ?_, rfl, rfl, rfl, ?_, ?_, ?_⟩
  · intro hd
    have hb := ctor_deadzone_bounds a
    have := filter_value_eq s a v (by rw [hd]; exact hb.1) (by rw [hd]; omega)
    rw [this, hd]
  · rw [filter_result]
    simp only [decide_eq_true_eq]
    exact ⟨fun h => fun h2 => h h2.symm, fun h => fun h2 => h h2.symm⟩
  · intro b
    rw [filter_state]
    by_cases hb : b = a
    · subst hb; simp
    · simp [Function.update, hb]
  · rw [filter_result, hctor]
    simp only [decide_eq_true_eq]
    have hz : GamepadSFML.ctor.m_value a = 0 := rfl
    rw [hz]
    exact ⟨fun h => fun h2 => h h2.symm, fun h => fun h2 => h h2.symm⟩
  · simp [GamepadSFML.filter]
  · simp [GamepadSFML.filter]

/-- What one call of `update` does: the tracker becomes the one `filter` leaves,
and the queue grows by nothing when the filtered value is the stored one, else
by the axis event followed by the key events of `dpadEvents`. -/
theorem update_spec (s : GamepadSFML) (q : EventQueue) (h g : Nat) (a : GamepadAxis)
    (v : Int) :
    s.update q h g a v =
      ((s.filter a v).2.1,
        q ++ (if (s.filter a v).2.2 = s.m_value a then []
              else Event.Axis h g a (s.filter a v).2.2
                :: dpadEvents h a (s.filter a v).2.2)) := by
  have hr := filter_result s a v
  unfold GamepadSFML.update
  rcases hfe : s.filter a v with ⟨b, s', f⟩
  rw [hfe] at hr
  simp only at hr
  cases b
  · have hf : f = s.m_value a := by
      by_contra hne
      have : decide (s.m_value a ≠ f) = true := by
        simp only [decide_eq_true_eq]
        exact fun h2 => hne h2.symm
      rw [this] at hr
      exact Bool.noConfusion hr
    simp [hf]
  · have hf : f ≠ s.m_value a := by
      intro h2
      have : decide (s.m_value a ≠ f) = false := by simp [h2]
      rw [this] at hr
      exact Bool.noConfusion hr
    by_cases h0 : f = 0
    · subst h0
      cases a <;>
        simp [hf, axisDpad, s_axisDpad, GamepadAxis.toNat, dpadEvents, dpadKeys,
          Key.None, Key.GamepadLeft, Key.GamepadRight, Key.GamepadUp, Key.GamepadDown,
          EventQueue.postAxisEvent, EventQueue.postKeyEvent]
    · by_cases hneg : f < 0
      · cases a <;>
          simp [hf, h0, hneg, axisDpad, s_axisDpad, GamepadAxis.toNat, dpadEvents, dpadKeys,
            Key.None, Key.GamepadLeft, Key.GamepadRight, Key.GamepadUp, Key.GamepadDown,
            EventQueue.postAxisEvent, EventQueue.postKeyEvent]
      · cases a <;>
          simp [hf, h0, hneg, axisDpad, s_axisDpad, GamepadAxis.toNat, dpadEvents, dpadKeys,
            Key.None, Key.GamepadLeft, Key.GamepadRight, Key.GamepadUp, Key.GamepadDown,
            EventQueue.postAxisEvent, EventQueue.postKeyEvent]

/-- C2. Event synthesis of one `GamepadSFML::update` call. For every tracker,
queue, axis `a` and raw value `v`, with `f` the filtered value: when `f` equals
the value stored for `a` nothing is posted; otherwise the axis event `(a, f)` is
posted first, followed, on LeftX/RightX by the keys GamepadLeft/GamepadRight and
on LeftY/RightY by the keys GamepadUp/GamepadDown, by key-up for both keys when
`f` is 0 and else by one key-down, for the first key when `f` is negative and
the second when it is positive; on LeftZ and RightZ the axis event is followed
by no key event. -/
theorem update_event_synthesis (s : GamepadSFML) (q : EventQueue) (h g : Nat)
    (a : GamepadAxis) (v : Int) :
    (s.update q h g a v).2 =
      q ++ (if (s.filter a v).2.2 = s.m_value a then []
            else Event.Axis h g a (s.filter a v).2.2
              :: (match dpadKeys a with
                  | none => []
                  | some (first, second) =>
                    if (s.filter a v).2.2 = 0 then
                      [Event.Key h first 0 false, Event.Key h second 0 false]
                    else if (s.filter a v).2.2 < 0 then [Event.Key h first 0 true]
                    else [Event.Key h second 0 true])) ∧
    dpadKeys GamepadAxis.LeftX = some (Key.GamepadLeft, Key.GamepadRight) ∧
    dpadKeys GamepadAxis.RightX = some (Key.GamepadLeft, Key.GamepadRight) ∧
    dpadKeys GamepadAxis.LeftY = some (Key.GamepadUp, Key.GamepadDown) ∧
    dpadKeys GamepadAxis.RightY = some (Key.GamepadUp, Key.GamepadDown) ∧
    dpadKeys GamepadAxis.LeftZ = none ∧
    dpadKeys GamepadAxis.RightZ = none := by
  refine ⟨?_, rfl, rfl, rfl, rfl, rfl, rfl⟩
  rw [update_spec]
  rfl

/-- C8, as the claim states it, fails: after one `update` has stored 10000 for
LeftX, `create` leaves that value in place instead of 0. -/
theorem create_resets_values_counterexample :
    (((GamepadSFML.ctor.update [] 0 0 GamepadAxis.LeftX 10000).1.create
        { joystickId := 0 }).m_value GamepadAxis.LeftX = 10000) ∧
    (((GamepadSFML.ctor.update [] 0 0 GamepadAxis.LeftX 10000).1.create
        { joystickId := 0 }).m_value GamepadAxis.LeftX ≠ 0) := by
  have h : ((GamepadSFML.ctor.update [] 0 0 GamepadAxis.LeftX 10000).1.create
      { joystickId := 0 }).m_value GamepadAxis.LeftX = 10000 := by
    rw [update_spec]
    simp [GamepadSFML.create, GamepadSFML.filter, GamepadSFML.ctor, wrapInt32]
  exact ⟨h, by rw [h]; decide⟩

/-- C8, amended. For every tracker state, `GamepadSFML::create(connectEvent)`
leaves every tracked axis value `m_value[a]` as it was (so equal to 0 when it
is called on a freshly constructed tracker) and sets `m_jid` to the event's
joystick id, which for a joystick id (below `sf::Joystick::Count`) is no longer
the `INT32_MAX` sentinel the constructor stored; `destroy()` sets `m_jid` back
to the sentinel `INT32_MAX`. Neither touches the deadzones, and `destroy`
leaves the axis values alone as well. -/
theorem create_destroy_effect (s : GamepadSFML) (_jev : JoystickConnectEvent) :
    (∀ a, (s.create _jev).m_value a = s.m_value a) ∧
    (∀ a, (GamepadSFML.ctor.create _jev).m_value a = 0) ∧
    (s.create _jev).m_deadzone = s.m_deadzone ∧
    (s.create _jev).m_jid = _jev.joystickId ∧
    GamepadSFML.ctor.m_jid = INT32_MAX ∧
    (_jev.joystickId < sf.Joystick.Count → (s.create _jev).m_jid ≠ INT32_MAX) ∧
    s.destroy.m_jid = INT32_MAX ∧
    (s.create _jev).destroy.m_jid = INT32_MAX ∧
    s.destroy.m_value = s.m_value ∧
    s.destroy.m_deadzone = s.m_deadzone := by
  refine ⟨fun _ => rfl, fun _ => rfl, rfl, rfl, rfl, ?_, rfl, rfl, rfl, rfl⟩
  intro hid
  show _jev.joystickId ≠ INT32_MAX
  unfold sf.Joystick.Count at hid
  unfold INT32_MAX
  omega

/-- Witness of C8 (amended): the tracker that has stored 10000 for LeftX,
connected as joystick 3. -/
theorem create_destroy_effect_witness :
    (3 : Nat) < sf.Joystick.Count ∧
    ((GamepadSFML.ctor.update [] 0 0 GamepadAxis.LeftX 10000).1.create
        { joystickId := 3 }).m_jid = 3 ∧
    ((GamepadSFML.ctor.update [] 0 0 GamepadAxis.LeftX 10000).1.create
        { joystickId := 3 }).m_jid ≠ INT32_MAX :=
  ⟨by decide,
   (create_destroy_effect (GamepadSFML.ctor.update [] 0 0 GamepadAxis.LeftX 10000).1
      { joystickId := 3 }).2.2.2.1,
   (create_destroy_effect (GamepadSFML.ctor.update [] 0 0 GamepadAxis.LeftX 10000).1
      { joystickId := 3 }).2.2.2.2.2.1 (by decide)⟩

/-! ## Traces of `update` on one axis -/

theorem countKey_append (k : Key.Enum) (d : Bool) (q e : List Event) :
    countKey k d (q ++ e) = countKey k d q + countKey k d e := by
  unfold countKey
  exact List.countP_append _ q e

theorem countKeyDown_append (q e : List Event) :
    countKeyDown (q ++ e) = countKeyDown q + countKeyDown e := by
  unfold countKeyDown
  exact List.countP_append _ q e

/-- The key events one `update` call adds, counted: `m` is the stored value,
`f` the filtered one, on an axis with the key pair `(first, second)`. -/
theorem step_counts (h g : Nat) (a : GamepadAxis) (first second : Key.Enum) (m f : Int)
    (hk : dpadKeys a = some (first, second)) :
    countKey first false
        (if f = m then [] else Event.Axis h g a f :: dpadEvents h a f)
      = (if m ≠ 0 ∧ f = 0 then 1 else 0) ∧
    countKey second false
        (if f = m then [] else Event.Axis h g a f :: dpadEvents h a f)
      = (if m ≠ 0 ∧ f = 0 then 1 else 0) ∧
    countKey first true
        (if f = m then [] else Event.Axis h g a f :: dpadEvents h a f)
      = (if m ≠ f ∧ f < 0 then 1 else 0) ∧
    countKey second true
        (if f = m then [] else Event.Axis h g a f :: dpadEvents h a f)
      = (if m ≠ f ∧ 0 < f then 1 else 0) ∧
    countKeyDown
        (if f = m then [] else Event.Axis h g a f :: dpadEvents h a f)
      = (if m ≠ f ∧ f < 0 then 1 else 0) + (if m ≠ f ∧ 0 < f then 1 else 0) := by
  have hkeys : first ≠ second := by
    cases a <;> simp only [dpadKeys, Option.some.injEq, Prod.mk.injEq] at hk <;>
      first
      | exact Option.noConfusion hk
      | (obtain ⟨h1, h2⟩ := hk; rw [← h1, ← h2]; decide)
  have hkeys2 : second ≠ first := fun e => hkeys e.symm
  by_cases hfm : f = m
  · subst hfm
    have h1 : ¬ (f ≠ 0 ∧ f = 0) := fun hh => hh.1 hh.2
    simp [countKey, countKeyDown, h1]
  · have hmf : m ≠ f := fun e => hfm e.symm
    by_cases h0 : f = 0
    · subst h0
      have hm0 : m ≠ 0 := hmf
      simp [countKey, countKeyDown, dpadEvents, hk, hfm, hm0, hkeys, hkeys2]
    · by_cases hneg : f < 0
      · have hpos : ¬ 0 < f := by omega
        simp [countKey, countKeyDown, dpadEvents, hk, hfm, hmf, h0, hneg, hpos, hkeys,
          hkeys2]
      · have hpos : 0 < f := by omega
        simp [countKey, countKeyDown, dpadEvents, hk, hfm, hmf, h0, hneg, hpos, hkeys,
          hkeys2]

/-- Counting the key events of a whole trace, from any tracker that holds the
constructor's deadzones and any queue. -/
theorem updates_counts (h g : Nat) (a : GamepadAxis) (first second : Key.Enum)
    (hk : dpadKeys a = some (first, second)) (vs : List Int) :
    ∀ (s : GamepadSFML) (q : EventQueue), s.m_deadzone = GamepadSFML.ctor.m_deadzone →
      countKey first false (s.updates q h g a vs).2
        = countKey first false q + crossingsIn (s.m_value a) (filteredValues a vs) ∧
      countKey second false (s.updates q h g a vs).2
        = countKey second false q + crossingsIn (s.m_value a) (filteredValues a vs) ∧
      countKey first true (s.updates q h g a vs).2
        = countKey first true q + changesToNegative (s.m_value a) (filteredValues a vs) ∧
      countKey second true (s.updates q h g a vs).2
        = countKey second true q + changesToPositive (s.m_value a) (filteredValues a vs) ∧
      countKeyDown (s.updates q h g a vs).2
        = countKeyDown q + (changesToNegative (s.m_value a) (filteredValues a vs)
            + changesToPositive (s.m_value a) (filteredValues a vs)) := by
  induction vs with
  | nil =>
    intro s q _
    simp [GamepadSFML.updates, filteredValues, crossingsIn, changesToNegative,
      changesToPositive]
  | cons v vs ih =>
    intro s q hd
    have hb := ctor_deadzone_bounds a
    have hf : (s.filter a v).2.2 = deadzoneFilter (GamepadSFML.ctor.m_deadzone a) v := by
      have := filter_value_eq s a v (by rw [hd]; exact hb.1) (by rw [hd]; omega)
      rw [this, hd]
    have hval : (s.filter a v).2.1.m_value a
        = deadzoneFilter (GamepadSFML.ctor.m_deadzone a) v := by
      rw [filter_state]; simp [hf]
    have hd1 : (s.filter a v).2.1.m_deadzone = GamepadSFML.ctor.m_deadzone := hd
    have hstep := step_counts h g a first second (s.m_value a)
      (deadzoneFilter (GamepadSFML.ctor.m_deadzone a) v) hk
    have hrec := ih (s.filter a v).2.1
      (q ++ (if (s.filter a v).2.2 = s.m_value a then []
              else Event.Axis h g a (s.filter a v).2.2
                :: dpadEvents h a (s.filter a v).2.2)) hd1
    rw [hval, hf] at hrec
    simp only [GamepadSFML.updates, update_spec, hf, filteredValues, List.map_cons,
      crossingsIn, changesToNegative, changesToPositive]
    simp only [filteredValues, countKey_append, countKeyDown_append, hstep.1, hstep.2.1,
      hstep.2.2.1, hstep.2.2.2.1, hstep.2.2.2.2] at hrec
    obtain ⟨h1, h2, h3, h4, h5⟩ := hrec
    refine ⟨?_, ?_, ?_, ?_, ?_⟩
    · rw [h1]; omega
    · rw [h2]; omega
    · rw [h3]; omega
    · rw [h4]; omega
    · rw [h5]; omega

theorem crossingsOut_le_changes (fs : List Int) :
    ∀ prev, crossingsOut prev fs ≤ changesToNegative prev fs + changesToPositive prev fs := by
  induction fs with
  | nil => intro prev; simp [crossingsOut]
  | cons f fs ih =>
    intro prev
    have := ih f
    simp only [crossingsOut, changesToNegative, changesToPositive]
    split_ifs <;> omega

/-- C7, as the claim states it, fails: on LeftX, from the constructed tracker,
the raw values 10000 then 20000 leave the deadzone once, yet two key-down
events are posted (GamepadRight both times), since the second value changes the
filtered value from one nonzero value to another. -/
theorem update_trace_counterexample :
    filteredValues GamepadAxis.LeftX [10000, 20000] = [10000, 20000] ∧
    crossingsOut 0 (filteredValues GamepadAxis.LeftX [10000, 20000]) = 1 ∧
    updateTrace 0 0 GamepadAxis.LeftX [10000, 20000]
      = [ Event.Axis 0 0 GamepadAxis.LeftX 10000, Event.Key 0 Key.GamepadRight 0 true
        , Event.Axis 0 0 GamepadAxis.LeftX 20000, Event.Key 0 Key.GamepadRight 0 true ] ∧
    countKeyDown (updateTrace 0 0 GamepadAxis.LeftX [10000, 20000]) = 2 ∧
    countKeyDown (updateTrace 0 0 GamepadAxis.LeftX [10000, 20000])
      ≠ crossingsOut 0 (filteredValues GamepadAxis.LeftX [10000, 20000]) := by
  have hf : filteredValues GamepadAxis.LeftX [10000, 20000] = [10000, 20000] := by
    simp [filteredValues, deadzoneFilter, GamepadSFML.ctor, abs_le]
  have ht : updateTrace 0 0 GamepadAxis.LeftX [10000, 20000]
      = [ Event.Axis 0 0 GamepadAxis.LeftX 10000, Event.Key 0 Key.GamepadRight 0 true
        , Event.Axis 0 0 GamepadAxis.LeftX 20000, Event.Key 0 Key.GamepadRight 0 true ] := by
    simp [updateTrace, GamepadSFML.updates, update_spec, GamepadSFML.filter,
      GamepadSFML.ctor, wrapInt32, dpadEvents, dpadKeys]
  have hc : crossingsOut 0 (filteredValues GamepadAxis.LeftX [10000, 20000]) = 1 := by
    rw [hf]; decide
  have hk : countKeyDown (updateTrace 0 0 GamepadAxis.LeftX [10000, 20000]) = 2 := by
    rw [ht]; decide
  exact ⟨hf, hc, ht, hk, by rw [hk, hc]; decide⟩

/-- C7, amended. On a directional axis `a` with key pair `(first, second)`, for
every sequence of raw values fed to `update` from the constructed tracker: the
key-ups posted for `first` and for `second` each number the crossings into the
deadzone (one pair per crossing); the key-downs posted for `first` number the
changes of the filtered value to a negative value and those for `second` the
changes to a positive value, so the key-downs number the changes of the
filtered value to a nonzero value, which is at least the number of crossings
out of the deadzone. -/
theorem update_trace_counts (h g : Nat) (a : GamepadAxis) (first second : Key.Enum)
    (vs : List Int) (hk : dpadKeys a = some (first, second)) :
    countKey first false (updateTrace h g a vs) = crossingsIn 0 (filteredValues a vs) ∧
    countKey second false (updateTrace h g a vs) = crossingsIn 0 (filteredValues a vs) ∧
    countKey first true (updateTrace h g a vs)
      = changesToNegative 0 (filteredValues a vs) ∧
    countKey second true (updateTrace h g a vs)
      = changesToPositive 0 (filteredValues a vs) ∧
    countKeyDown (updateTrace h g a vs)
      = changesToNegative 0 (filteredValues a vs)
        + changesToPositive 0 (filteredValues a vs) ∧
    crossingsOut 0 (filteredValues a vs) ≤ countKeyDown (updateTrace h g a vs) := by
  have hc := updates_counts h g a first second hk vs GamepadSFML.ctor [] rfl
  have hz : GamepadSFML.ctor.m_value a = 0 := rfl
  rw [hz] at hc
  have hq1 : countKey first false ([] : EventQueue) = 0 := rfl
  have hq2 : countKey second false ([] : EventQueue) = 0 := rfl
  have hq3 : countKey first true ([] : EventQueue) = 0 := rfl
  have hq4 : countKey second true ([] : EventQueue) = 0 := rfl
  have hq5 : countKeyDown ([] : EventQueue) = 0 := rfl
  rw [hq1, hq2, hq3, hq4, hq5] at hc
  simp only [Nat.zero_add] at hc
  obtain ⟨h1, h2, h3, h4, h5⟩ := hc
  have hle := crossingsOut_le_changes (filteredValues a vs) 0
  refine ⟨h1, h2, h3, h4, h5, ?_⟩
  unfold updateTrace
  rw [h5]
  exact hle

/-- Witness of C7 (amended): LeftX, raw values 10000, 20000, 0, -9000. -/
theorem update_trace_counts_witness :
    dpadKeys GamepadAxis.LeftX = some (Key.GamepadLeft, Key.GamepadRight) ∧
    countKey Key.GamepadLeft false
        (updateTrace 0 0 GamepadAxis.LeftX [10000, 20000, 0, -9000])
      = crossingsIn 0 (filteredValues GamepadAxis.LeftX [10000, 20000, 0, -9000]) ∧
    countKeyDown (updateTrace 0 0 GamepadAxis.LeftX [10000, 20000, 0, -9000])
      = changesToNegative 0 (filteredValues GamepadAxis.LeftX [10000, 20000, 0, -9000])
        + changesToPositive 0
            (filteredValues GamepadAxis.LeftX [10000, 20000, 0, -9000]) :=
  ⟨rfl,
   (update_trace_counts 0 0 GamepadAxis.LeftX Key.GamepadLeft Key.GamepadRight
      [10000, 20000, 0, -9000] rfl).1,
   (update_trace_counts 0 0 GamepadAxis.LeftX Key.GamepadLeft Key.GamepadRight
      [10000, 20000, 0, -9000] rfl).2.2.2.2.1⟩

/-! ## Properties of the controller -/

/-- C3. `Context::setWindowSize(handle, w, h, force)` posts an event exactly
when `w` differs from the tracked `m_width`, or `h` from the tracked
`m_height`, or `force` is true; when it posts, the one event appended is
`WindowSize(w, h)` and the tracked size becomes `(w, h)`; when it does not, the
context, and with it the tracked size and the event queue, is unchanged. -/
theorem setWindowSize_posts_iff (c : Context) (_handle w h : Nat) (force : Bool) :
    ((c.setWindowSize _handle w h force).m_eventQueue ≠ c.m_eventQueue
      ↔ (w ≠ c.m_width ∨ h ≠ c.m_height ∨ force = true)) ∧
    ((w ≠ c.m_width ∨ h ≠ c.m_height ∨ force = true) →
      (c.setWindowSize _handle w h force).m_eventQueue
          = c.m_eventQueue ++ [Event.Size 0 w h] ∧
      (c.setWindowSize _handle w h force).m_width = w ∧
      (c.setWindowSize _handle w h force).m_height = h) ∧
    (¬ (w ≠ c.m_width ∨ h ≠ c.m_height ∨ force = true) →
      c.setWindowSize _handle w h force = c) := by
  by_cases hc : w ≠ c.m_width ∨ h ≠ c.m_height ∨ force = true
  · have hq : (c.setWindowSize _handle w h force).m_eventQueue
        = c.m_eventQueue ++ [Event.Size 0 w h] := by
      simp only [Context.setWindowSize, if_pos hc, EventQueue.postSizeEvent]
    refine ⟨⟨fun _ => hc, fun _ => ?_⟩, fun _ => ⟨hq, ?_, ?_⟩, fun hn => absurd hc hn⟩
    · rw [hq]
      intro he
      have := congrArg List.length he
      simp at this
    · simp only [Context.setWindowSize, if_pos hc]
    · simp only [Context.setWindowSize, if_pos hc]
  · have hq : c.setWindowSize _handle w h force = c := by
      simp only [Context.setWindowSize, if_neg hc]
    refine ⟨⟨fun hne => absurd (by rw [hq]) hne, fun h2 => absurd h2 hc⟩,
      fun h2 => absurd h2 hc, fun _ => hq⟩

theorem pollEvents_append (l1 l2 : List sf.Event) :
    ∀ (c : Context) (exit : Bool),
      c.pollEvents exit (l1 ++ l2)
        = (c.pollEvents exit l1).1.pollEvents (c.pollEvents exit l1).2 l2 := by
  induction l1 with
  | nil => intro c exit; rfl
  | cons e l1 ih =>
    intro c exit
    show (c.dispatch exit e).1.pollEvents (c.dispatch exit e).2 (l1 ++ l2) = _
    rw [ih]
    rfl

/-- Only `Closed` sets the flag `exit`, and nothing clears it. -/
theorem dispatch_exit (c : Context) (exit : Bool) (e : sf.Event) :
    (c.dispatch exit e).2 = (exit || decide (e = sf.Event.Closed)) := by
  cases e <;> simp [Context.dispatch]

theorem pollEvents_exit (l : List sf.Event) :
    ∀ (c : Context) (exit : Bool),
      (c.pollEvents exit l).2 = (exit || decide (sf.Event.Closed ∈ l)) := by
  induction l with
  | nil => intro c exit; simp [Context.pollEvents]
  | cons e l ih =>
    intro c exit
    show ((c.dispatch exit e).1.pollEvents (c.dispatch exit e).2 l).2 = _
    rw [ih, dispatch_exit]
    by_cases h1 : e = sf.Event.Closed
    · simp [h1]
    · have h2 : ¬ sf.Event.Closed = e := fun h => h1 h.symm
      simp [h1, h2]

/-- The outer loop does not depend on how the native events are spread over
its iterations: when the pending events, taken together, are `pre` followed by
`Closed`, with no `Closed` in `pre`, the loop exits with the context that
dispatching them in order produces. -/
theorem runLoop_join (frames : List (List sf.Event)) :
    ∀ (c : Context) (pre : List sf.Event), sf.Event.Closed ∉ pre →
      frames.flatten = pre ++ [sf.Event.Closed] →
      c.runLoop frames = some (c.pollEvents false (pre ++ [sf.Event.Closed])).1 := by
  induction frames with
  | nil =>
    intro c pre _ hj
    have := congrArg List.length hj
    simp at this
  | cons frame rest ih =>
    intro c pre hpre hj
    rw [List.flatten_cons] at hj
    have hexit := pollEvents_exit frame c false
    rcases List.append_eq_append_iff.mp hj with ⟨a', ha, hr⟩ | ⟨c', hf, hc⟩
    · -- the frame is a prefix of `pre`
      have hnot : sf.Event.Closed ∉ frame := fun hm => hpre (by rw [ha]; simp [hm])
      have hex : (c.pollEvents false frame).2 = false := by rw [hexit]; simp [hnot]
      have ha' : sf.Event.Closed ∉ a' := fun hm => hpre (by rw [ha]; simp [hm])
      have hrec := ih (c.pollEvents false frame).1 a' ha' hr
      show (if (c.pollEvents false frame).2 = true then some (c.pollEvents false frame).1
            else Context.runLoop (c.pollEvents false frame).1 rest) = _
      rw [hex]
      simp only [Bool.false_eq_true, if_false]
      rw [hrec, ha, List.append_assoc,
        pollEvents_append frame (a' ++ [sf.Event.Closed]) c false, hex]
    · -- the frame reaches the final `Closed`
      rcases List.append_eq_cons_iff.mp hc.symm with ⟨hc1, hc2⟩ | ⟨t, hc1, hc2⟩
      · -- the frame is exactly `pre`
        subst hc1
        simp only [List.append_nil] at hf
        subst hf
        have hex : (c.pollEvents false frame).2 = false := by rw [hexit]; simp [hpre]
        have hrec := ih (c.pollEvents false frame).1 [] (by simp) (by simpa using hc2)
        show (if (c.pollEvents false frame).2 = true then some (c.pollEvents false frame).1
              else Context.runLoop (c.pollEvents false frame).1 rest) = _
        rw [hex]
        simp only [Bool.false_eq_true, if_false]
        rw [hrec, pollEvents_append frame [sf.Event.Closed] c false, hex]
        rfl
      · -- the frame is `pre` followed by `Closed`
        have ht : t = [] := by
          have := List.nil_eq_append_iff.mp hc2
          exact this.1
        subst ht
        subst hc1
        have hex : (c.pollEvents false frame).2 = true := by
          rw [hexit, hf]; simp
        show (if (c.pollEvents false frame).2 = true then some (c.pollEvents false frame).1
              else Context.runLoop (c.pollEvents false frame).1 rest) = _
        rw [if_pos hex, hf]

/-- The events a context with wheel accumulator 0 posts for the end-to-end
sequence are appended to whatever its queue holds. -/
theorem pollEvents_endToEnd (c : Context) (px py rx ry : Int) (hz : c.m_mz = 0) :
    (c.pollEvents false (endToEndSequence px py rx ry)).1.m_eventQueue
      = c.m_eventQueue ++ endToEndEvents px py rx ry := by
  simp [endToEndSequence, endToEndEvents, Context.pollEvents, Context.dispatch,
    Context.translateMouseButton, EventQueue.postMouseMoveEvent,
    EventQueue.postMouseButtonEvent, EventQueue.postExitEvent, hz]

/-- C4, as the claim states it, fails. Through `Context::run`, with the native
sequence pending in the first iteration and the button events at the pointer
position (10,10), the loop exits and the queue holds five events, the first
being the `WindowSize` of the forced startup resize, not the four listed; and
when the native button events carry another position, here (3,4), the
`MouseButton` events carry that position, not (10,10). -/
theorem end_to_end_counterexample :
    ((Context.ctor 1280 720).run [endToEndSequence 10 10 10 10]).map
        (fun c => c.m_eventQueue)
      = some [ Event.Size 0 1280 720
             , Event.MouseMove 0 10 10 0
             , Event.MouseButton 0 10 10 0 MouseButton.Left true
             , Event.MouseButton 0 10 10 0 MouseButton.Left false
             , Event.Exit ] ∧
    ((Context.ctor 1280 720).run [endToEndSequence 10 10 10 10]).map
        (fun c => c.m_eventQueue)
      ≠ some claimedEndToEndEvents ∧
    ((Context.ctor 1280 720).run [endToEndSequence 3 4 3 4]).map
        (fun c => c.m_eventQueue)
      = some [ Event.Size 0 1280 720
             , Event.MouseMove 0 10 10 0
             , Event.MouseButton 0 3 4 0 MouseButton.Left true
             , Event.MouseButton 0 3 4 0 MouseButton.Left false
             , Event.Exit ] := by
  decide

/-- C4, amended. End-to-end event mapping: when `Context::run`, starting from
the constructed controller (mouse x, y and wheel accumulator all 0, empty
queue), processes the native event sequence MouseMoved(10,10),
MouseButtonPressed(Left), MouseButtonReleased(Left), Closed on the default
window, however the four events are spread over the iterations of the loop, the
loop exits and the event queue yields, in order: the `WindowSize` event of the
forced startup resize (default width and height), then MouseMove(10,10,0),
MouseButton(x,y,0,Left,true) and MouseButton(x,y,0,Left,false) at the position
the native button event carries, then Exit; with the button events at the
pointer position (10,10) these are the `WindowSize` event followed by the four
events listed. -/
theorem run_end_to_end_events (ENTRY_DEFAULT_WIDTH ENTRY_DEFAULT_HEIGHT : Nat)
    (px py rx ry : Int) (frames : List (List sf.Event))
    (hframes : frames.flatten = endToEndSequence px py rx ry) :
    ((Context.ctor ENTRY_DEFAULT_WIDTH ENTRY_DEFAULT_HEIGHT).run frames).map
        (fun c => c.m_eventQueue)
      = some (Event.Size 0 ENTRY_DEFAULT_WIDTH ENTRY_DEFAULT_HEIGHT
          :: [ Event.MouseMove 0 10 10 0
             , Event.MouseButton 0 px py 0 MouseButton.Left true
             , Event.MouseButton 0 rx ry 0 MouseButton.Left false
             , Event.Exit ]) ∧
    (Context.ctor ENTRY_DEFAULT_WIDTH ENTRY_DEFAULT_HEIGHT).m_mx = 0 ∧
    (Context.ctor ENTRY_DEFAULT_WIDTH ENTRY_DEFAULT_HEIGHT).m_my = 0 ∧
    (Context.ctor ENTRY_DEFAULT_WIDTH ENTRY_DEFAULT_HEIGHT).m_mz = 0 ∧
    (Context.ctor ENTRY_DEFAULT_WIDTH ENTRY_DEFAULT_HEIGHT).m_eventQueue = [] ∧
    Event.Size 0 ENTRY_DEFAULT_WIDTH ENTRY_DEFAULT_HEIGHT :: endToEndEvents 10 10 10 10
      = Event.Size 0 ENTRY_DEFAULT_WIDTH ENTRY_DEFAULT_HEIGHT :: claimedEndToEndEvents := by
  refine ⟨?_, rfl, rfl, rfl, rfl, rfl⟩
  have hj : frames.flatten
      = [ sf.Event.MouseMoved 10 10
        , sf.Event.MouseButtonPressed sf.Mouse.Button.Left px py
        , sf.Event.MouseButtonReleased sf.Mouse.Button.Left rx ry ] ++ [sf.Event.Closed] := by
    rw [hframes]; rfl
  have hloop := runLoop_join frames
    (({ (Context.ctor ENTRY_DEFAULT_WIDTH ENTRY_DEFAULT_HEIGHT) with
        m_window := some (ENTRY_DEFAULT_WIDTH, ENTRY_DEFAULT_HEIGHT) } : Context).setWindowSize
      0 ENTRY_DEFAULT_WIDTH ENTRY_DEFAULT_HEIGHT true)
    _ (by simp) hj
  simp only [Context.run, Context.ctor]
  simp only [Context.ctor] at hloop
  rw [hloop]
  simp [Context.setWindowSize, EventQueue.postSizeEvent, Context.pollEvents,
    Context.dispatch, Context.translateMouseButton, EventQueue.postMouseMoveEvent,
    EventQueue.postMouseButtonEvent, EventQueue.postExitEvent]

/-- Witness of C4 (amended): default size 1280 by 720, the move and the press
pending in one iteration, an iteration without events, then the release and
the close. -/
theorem run_end_to_end_events_witness :
    [ [sf.Event.MouseMoved 10 10, sf.Event.MouseButtonPressed sf.Mouse.Button.Left 10 10]
    , []
    , [sf.Event.MouseButtonReleased sf.Mouse.Button.Left 10 10, sf.Event.Closed] ].flatten
      = endToEndSequence 10 10 10 10 ∧
    ((Context.ctor 1280 720).run
        [ [sf.Event.MouseMoved 10 10, sf.Event.MouseButtonPressed sf.Mouse.Button.Left 10 10]
        , []
        , [sf.Event.MouseButtonReleased sf.Mouse.Button.Left 10 10, sf.Event.Closed] ]).map
        (fun c => c.m_eventQueue)
      = some (Event.Size 0 1280 720
          :: [ Event.MouseMove 0 10 10 0
             , Event.MouseButton 0 10 10 0 MouseButton.Left true
             , Event.MouseButton 0 10 10 0 MouseButton.Left false
             , Event.Exit ]) :=
  ⟨rfl,
   (run_end_to_end_events 1280 720 10 10 10 10
      [ [sf.Event.MouseMoved 10 10, sf.Event.MouseButtonPressed sf.Mouse.Button.Left 10 10]
      , []
      , [sf.Event.MouseButtonReleased sf.Mouse.Button.Left 10 10, sf.Event.Closed] ]
      rfl).1⟩

/-! ## Properties of the translation tables -/

/-- A cell of the table after a run of registrations holds either what it held
before or the byte of a registration made for that cell. -/
theorem initTranslateKeys_cell (regs : List (sf.Keyboard.Key × Key.Enum)) :
    ∀ (t : Int → Nat) (c : Int),
      initTranslateKeys t regs c = t c ∨
        ∃ p ∈ regs, p.1 = c ∧ initTranslateKeys t regs c = p.2 % 256 := by
  induction regs with
  | nil => intro t c; exact Or.inl rfl
  | cons r rest ih =>
    intro t c
    obtain ⟨k, key⟩ := r
    rcases ih (initTranslateKey t k key) c with h | ⟨p, hp, hpc, hv⟩
    · by_cases hck : c = k
      · right
        refine ⟨(k, key), List.mem_cons_self _ _, hck.symm, ?_⟩
        show initTranslateKeys (initTranslateKey t k key) rest c = key % 256
        rw [h, hck]
        simp [initTranslateKey]
      · left
        show initTranslateKeys (initTranslateKey t k key) rest c = t c
        rw [h]
        simp [initTranslateKey, Function.update, hck]
    · right
      exact ⟨p, List.mem_cons_of_mem _ hp, hpc, hv⟩

set_option maxRecDepth 100000 in
theorem keyRegistrations_valid :
    ∀ p ∈ keyRegistrations, p.2 % 256 < Key.Count ∧ 0 ≤ p.1 ∧ p.1 ≤ 255 := by
  decide

/-- C5. After `Context` construction, for every native key code `c` in 0..255,
`translateKey(c)` is strictly below `Key::Count`, and when `c` was never passed
to `initTranslateKey` it is `Key::None`. The embedded `translateKey` reads the
constructed table and nothing else, so its result is a function of `c`. -/
theorem translateKey_valid (c : sf.Keyboard.Key) (_h0 : 0 ≤ c) (_h1 : c ≤ 255) :
    translateKey c < Key.Count ∧
    ((∀ p ∈ keyRegistrations, p.1 ≠ c) → translateKey c = Key.None) := by
  unfold translateKey s_translateKey
  rcases initTranslateKeys_cell keyRegistrations (fun _ => 0) c with h | ⟨p, hp, hpc, hv⟩
  · rw [h]
    exact ⟨by decide, fun _ => rfl⟩
  · rw [hv]
    exact ⟨(keyRegistrations_valid p hp).1, fun hn => absurd hpc (hn p hp)⟩

set_option maxRecDepth 100000 in
/-- Witness of C5: the registered code of Escape and the unregistered code 45
(the Menu key). -/
theorem translateKey_valid_witness :
    translateKey sf.Keyboard.Escape < Key.Count ∧ translateKey 45 = Key.None :=
  ⟨(translateKey_valid sf.Keyboard.Escape (by decide) (by decide)).1,
   (translateKey_valid 45 (by decide) (by decide)).2 (by decide)⟩

set_option maxRecDepth 100000 in
/-- Registered codes translate to the key they were registered with. -/
theorem translateKey_examples :
    translateKey sf.Keyboard.Escape = Key.Esc ∧
    translateKey sf.Keyboard.Return = Key.Return ∧
    translateKey sf.Keyboard.Backspace = Key.Backspace ∧
    translateKey sf.Keyboard.A = Key.KeyA ∧
    translateKey sf.Keyboard.Z = Key.KeyZ := by
  decide

/-- C10. Modifier translation. For every native key code `k`,
`translateKeyModifiers(k)` and `translateKeyModifierPress(k)` return the same
value: the modifier bit paired with `k` when `k` is one of LAlt, RAlt,
LControl, RControl, LShift, RShift, LSystem, RSystem (LeftAlt, RightAlt,
LeftCtrl, RightCtrl, LeftShift, RightShift, LeftMeta, RightMeta respectively,
each a single bit of a byte), and 0 for every other code. -/
theorem translateKeyModifiers_eq_press (k : Int) :
    translateKeyModifiers k = translateKeyModifierPress k ∧
    translateKeyModifiers k = (modifierOf k).getD 0 ∧
    (∀ m ∈ modifierOf k, ∃ i, i < 8 ∧ m = 2 ^ i) ∧
    (modifierOf k = none ↔
      k ≠ sf.Keyboard.LAlt ∧ k ≠ sf.Keyboard.RAlt ∧ k ≠ sf.Keyboard.LControl ∧
      k ≠ sf.Keyboard.RControl ∧ k ≠ sf.Keyboard.LShift ∧ k ≠ sf.Keyboard.RShift ∧
      k ≠ sf.Keyboard.LSystem ∧ k ≠ sf.Keyboard.RSystem) ∧
    modifierOf sf.Keyboard.LAlt = some Modifier.LeftAlt ∧
    modifierOf sf.Keyboard.RAlt = some Modifier.RightAlt ∧
    modifierOf sf.Keyboard.LControl = some Modifier.LeftCtrl ∧
    modifierOf sf.Keyboard.RControl = some Modifier.RightCtrl ∧
    modifierOf sf.Keyboard.LShift = some Modifier.LeftShift ∧
    modifierOf sf.Keyboard.RShift = some Modifier.RightShift ∧
    modifierOf sf.Keyboard.LSystem = some Modifier.LeftMeta ∧
    modifierOf sf.Keyboard.RSystem = some Modifier.RightMeta := by
  have hcases : (37 ≤ k ∧ k ≤ 44) ∨
      (k ≠ 39 ∧ k ≠ 43 ∧ k ≠ 37 ∧ k ≠ 41 ∧ k ≠ 38 ∧ k ≠ 42 ∧ k ≠ 40 ∧ k ≠ 44) := by
    omega
  refine ⟨?_, ?_, ?_, ?_, by decide, by decide, by decide, by decide, by decide,
    by decide, by decide, by decide⟩
  · rcases hcases with ⟨hl, hu⟩ | ⟨e1, e2, e3, e4, e5, e6, e7, e8⟩
    · interval_cases k <;> decide
    · simp [translateKeyModifiers, translateKeyModifierPress, sf.Keyboard.LAlt,
        sf.Keyboard.RAlt, sf.Keyboard.LControl, sf.Keyboard.RControl, sf.Keyboard.LShift,
        sf.Keyboard.RShift, sf.Keyboard.LSystem, sf.Keyboard.RSystem, e1, e2, e3, e4, e5,
        e6, e7, e8]
  · rcases hcases with ⟨hl, hu⟩ | ⟨e1, e2, e3, e4, e5, e6, e7, e8⟩
    · interval_cases k <;> decide
    · simp [translateKeyModifiers, modifierOf, sf.Keyboard.LAlt,
        sf.Keyboard.RAlt, sf.Keyboard.LControl, sf.Keyboard.RControl, sf.Keyboard.LShift,
        sf.Keyboard.RShift, sf.Keyboard.LSystem, sf.Keyboard.RSystem, e1, e2, e3, e4, e5,
        e6, e7, e8]
  · intro m hm
    rcases hcases with ⟨hl, hu⟩ | ⟨e1, e2, e3, e4, e5, e6, e7, e8⟩
    · interval_cases k <;>
        (have hm2 : some m = _ := hm.symm
         simp only [modifierOf] at hm2
         first
         | exact ⟨0, by decide, Option.some.inj hm2⟩
         | exact ⟨1, by decide, Option.some.inj hm2⟩
         | exact ⟨2, by decide, Option.some.inj hm2⟩
         | exact ⟨3, by decide, Option.some.inj hm2⟩
         | exact ⟨4, by decide, Option.some.inj hm2⟩
         | exact ⟨5, by decide, Option.some.inj hm2⟩
         | exact ⟨6, by decide, Option.some.inj hm2⟩
         | exact ⟨7, by decide, Option.some.inj hm2⟩)
    · simp [modifierOf, sf.Keyboard.LAlt,
        sf.Keyboard.RAlt, sf.Keyboard.LControl, sf.Keyboard.RControl, sf.Keyboard.LShift,
        sf.Keyboard.RShift, sf.Keyboard.LSystem, sf.Keyboard.RSystem, e1, e2, e3, e4, e5,
        e6, e7, e8] at hm
  · rcases hcases with ⟨hl, hu⟩ | ⟨e1, e2, e3, e4, e5, e6, e7, e8⟩
    · interval_cases k <;> decide
    · simp [modifierOf, sf.Keyboard.LAlt,
        sf.Keyboard.RAlt, sf.Keyboard.LControl, sf.Keyboard.RControl, sf.Keyboard.LShift,
        sf.Keyboard.RShift, sf.Keyboard.LSystem, sf.Keyboard.RSystem, e1, e2, e3, e4, e5,
        e6, e7, e8]

end entry
